import Mathlib

/-!
Verification of the Amiga PSU tick generator (src/src/main.c).

The program configures an STM8 hardware timer and then runs an infinite
polling loop that drives a square wave on port-B pin 0, with the period
selected by port-B pin 1.  We embed the memory-mapped register file as a
record of natural numbers (each register is an 8-bit byte in hardware),
the startup sequence and one loop iteration as state transformers, and
prove the specification claims about them.
-/

/-- The port-B bit mask of the tick output pin (const unsigned short TICK_PIN = 0x01). -/
def TICK_PIN : ℕ := 0x01

/-- The port-B bit mask of the frequency select pin (const unsigned short FREQ_SELECT_PIN = 0x02). -/
def FREQ_SELECT_PIN : ℕ := 0x02

/-- Counter ticks in one 50 Hz period (const unsigned short TICKS_50HZ = 40000). -/
def TICKS_50HZ : ℕ := 40000

/-- Counter ticks in one 60 Hz period (const unsigned short TICKS_60HZ = 33333). -/
def TICKS_60HZ : ℕ := 33333

/-- The memory-mapped hardware registers touched by the program.  Every
register is one byte; 8-bit truncation on store is written out explicitly
where the C code relies on it. -/
@[ext]
structure Hw where
  CLK_CKDIVR : ℕ
  TIM1_CNTRH : ℕ
  TIM1_CNTRL : ℕ
  TIM1_PSCRH : ℕ
  TIM1_PSCRL : ℕ
  TIM1_CR1 : ℕ
  PB_ODR : ℕ
  PB_IDR : ℕ
  PB_DDR : ℕ
  PB_CR1 : ℕ
deriving DecidableEq, Repr

/-- unsigned short clock(void): read the two counter bytes and combine them,
((unsigned short)(h) fanned out over 8 bits, or-ed with l). -/
def clock (s : Hw) : ℕ :=
  (s.TIM1_CNTRH <<< 8) ||| s.TIM1_CNTRL

/-- void reset_clock(): force the counter to the end of its range
(TIM1_CNTRH = 0xff; TIM1_CNTRL = 0xff). -/
def reset_clock (s : Hw) : Hw :=
  { s with TIM1_CNTRH := 0xff, TIM1_CNTRL := 0xff }

/-- The startup sequence of main(), everything before the while(1) loop:
clock divider, prescaler, timer enable, pin directions, pin drive
configuration, and forcing the tick output low.  The final store models
PB_ODR &= ~TICK_PIN on the 8-bit register: the complement of TICK_PIN
truncated to a byte is 0xFF ^^^ TICK_PIN. -/
def startup (s : Hw) : Hw :=
  { s with
    CLK_CKDIVR := 0x00,
    TIM1_PSCRH := 0x00,
    TIM1_PSCRL := 0x08 - 1,
    TIM1_CR1 := 0x01,
    PB_DDR := TICK_PIN ||| FREQ_SELECT_PIN,
    PB_CR1 := TICK_PIN ||| FREQ_SELECT_PIN,
    PB_ODR := s.PB_ODR &&& (0xFF ^^^ TICK_PIN) }

/-- The period constant chosen from a sampled input-data-register byte:
(PB_IDR & FREQ_SELECT_PIN ? TICKS_60HZ : TICKS_50HZ). -/
def selectTicks (idr : ℕ) : ℕ :=
  if idr &&& FREQ_SELECT_PIN ≠ 0 then TICKS_60HZ else TICKS_50HZ

/-- The period the loop body uses on an iteration starting in state s. -/
def usedTicks (s : Hw) : ℕ :=
  selectTicks s.PB_IDR

/-- The logical counter value of one iteration: the local variable ck,
which starts as the sampled value ck0 and is zeroed when ck0 overshoots
the period. -/
def logicalCk (ck0 ticks : ℕ) : ℕ :=
  if ck0 > ticks then 0 else ck0

/-- The duty-cycle decision of the loop body: drive the output high
exactly when ck > ticks / 2 (C unsigned division truncates). -/
def outputHigh (ck ticks : ℕ) : Bool :=
  ck > ticks / 2

/-- One iteration of the while(1) loop in main(): sample the select pin,
read the counter, reset on overshoot, then set or clear the tick bit of
PB_ODR according to the duty-cycle decision. -/
def loopIter (s : Hw) : Hw :=
  let ticks := usedTicks s
  let ck0 := clock s
  let s1 := if ck0 > ticks then reset_clock s else s
  let ck := logicalCk ck0 ticks
  if outputHigh ck ticks then
    { s1 with PB_ODR := s1.PB_ODR ||| TICK_PIN }
  else
    { s1 with PB_ODR := s1.PB_ODR &&& (0xFF ^^^ TICK_PIN) }

/-- The number of counter values in [0, P) for which the duty-cycle
decision drives the output high. -/
def countHigh (P : ℕ) : ℕ :=
  ((Finset.range P).filter (fun c => outputHigh c P = true)).card

/-- A reset-value register file used to build concrete states for witnesses. -/
def hwBase : Hw :=
  { CLK_CKDIVR := 0, TIM1_CNTRH := 0, TIM1_CNTRL := 0, TIM1_PSCRH := 0,
    TIM1_PSCRL := 0, TIM1_CR1 := 0, PB_ODR := 0, PB_IDR := 0, PB_DDR := 0,
    PB_CR1 := 0 }

section FieldLemmas

lemma loopIter_PB_ODR (s : Hw) :
    (loopIter s).PB_ODR =
      if outputHigh (logicalCk (clock s) (usedTicks s)) (usedTicks s) then
        s.PB_ODR ||| TICK_PIN
      else
        s.PB_ODR &&& (0xFF ^^^ TICK_PIN) := by
  simp only [loopIter]
  split <;> split <;> rfl

lemma loopIter_TIM1_CNTRH (s : Hw) :
    (loopIter s).TIM1_CNTRH =
      if usedTicks s < clock s then 0xff else s.TIM1_CNTRH := by
  simp only [loopIter]
  split <;> split <;> rfl

lemma loopIter_TIM1_CNTRL (s : Hw) :
    (loopIter s).TIM1_CNTRL =
      if usedTicks s < clock s then 0xff else s.TIM1_CNTRL := by
  simp only [loopIter]
  split <;> split <;> rfl

lemma loopIter_PB_IDR (s : Hw) : (loopIter s).PB_IDR = s.PB_IDR := by
  simp only [loopIter]
  split <;> split <;> rfl

lemma loopIter_CLK_CKDIVR (s : Hw) : (loopIter s).CLK_CKDIVR = s.CLK_CKDIVR := by
  simp only [loopIter]
  split <;> split <;> rfl

lemma loopIter_TIM1_PSCRH (s : Hw) : (loopIter s).TIM1_PSCRH = s.TIM1_PSCRH := by
  simp only [loopIter]
  split <;> split <;> rfl

lemma loopIter_TIM1_PSCRL (s : Hw) : (loopIter s).TIM1_PSCRL = s.TIM1_PSCRL := by
  simp only [loopIter]
  split <;> split <;> rfl

lemma loopIter_TIM1_CR1 (s : Hw) : (loopIter s).TIM1_CR1 = s.TIM1_CR1 := by
  simp only [loopIter]
  split <;> split <;> rfl

lemma loopIter_PB_DDR (s : Hw) : (loopIter s).PB_DDR = s.PB_DDR := by
  simp only [loopIter]
  split <;> split <;> rfl

lemma loopIter_PB_CR1 (s : Hw) : (loopIter s).PB_CR1 = s.PB_CR1 := by
  simp only [loopIter]
  split <;> split <;> rfl

lemma loopIter_usedTicks (s : Hw) : usedTicks (loopIter s) = usedTicks s := by
  unfold usedTicks
  rw [loopIter_PB_IDR]

end FieldLemmas

section BitHelpers

lemma or_tick_and_tick (a : ℕ) : (a ||| TICK_PIN) &&& TICK_PIN = TICK_PIN := by
  simp [TICK_PIN, Nat.and_one_is_mod, Nat.or_mod_two_eq_one]

lemma and_mask_and_tick (a : ℕ) : (a &&& (0xFF ^^^ TICK_PIN)) &&& TICK_PIN = 0 := by
  rw [Nat.and_assoc]
  have h : (0xFF ^^^ TICK_PIN) &&& TICK_PIN = 0 := by decide
  rw [h, Nat.and_zero]

lemma or_tick_testBit (a i : ℕ) (hi : i ≠ 0) :
    (a ||| TICK_PIN).testBit i = a.testBit i := by
  have h1 : Nat.testBit TICK_PIN i = false :=
    Nat.testBit_lt_two_pow (Nat.one_lt_two_pow hi)
  simp [Nat.testBit_or, h1]

lemma and_mask_testBit (a i : ℕ) (h8 : a < 256) (hi : i ≠ 0) :
    (a &&& (0xFF ^^^ TICK_PIN)).testBit i = a.testBit i := by
  by_cases hlt : i < 8
  · have hm : Nat.testBit (0xFF ^^^ TICK_PIN) i = true := by
      interval_cases i <;> simp_all <;> decide
    simp [Nat.testBit_and, hm]
  · have ha : a.testBit i = false := by
      refine Nat.testBit_lt_two_pow (lt_of_lt_of_le h8 ?_)
      calc (256 : ℕ) = 2 ^ 8 := by norm_num
        _ ≤ 2 ^ i := Nat.pow_le_pow_right (by norm_num) (le_of_not_lt hlt)
    simp [Nat.testBit_and, ha]

end BitHelpers

lemma usedTicks_cases (s : Hw) :
    usedTicks s = TICKS_50HZ ∨ usedTicks s = TICKS_60HZ := by
  unfold usedTicks selectTicks
  split
  · right; rfl
  · left; rfl

lemma usedTicks_pos (s : Hw) : 0 < usedTicks s := by
  rcases usedTicks_cases s with h | h <;> rw [h] <;> norm_num [TICKS_50HZ, TICKS_60HZ]

lemma countHigh_formula (P : ℕ) : countHigh P = P - (P / 2 + 1) := by
  unfold countHigh
  have h : ∀ c : ℕ, (outputHigh c P = true) ↔ (P / 2 + 1 ≤ c) := by
    intro c
    simp [outputHigh, Nat.lt_iff_add_one_le]
  rw [Finset.filter_congr (fun c _ => by rw [h c])]
  rw [Finset.range_eq_Ico, Finset.Ico_filter_le]
  simp [Nat.card_Ico]

/-- Claim C1: for every loop iteration with selected period P (40,000 or
33,333) and logical counter value c in [0, P) after the reset step, the
output pin is driven high if and only if c > P / 2 with integer (floor)
division; otherwise it is driven low. -/
theorem C1_duty_cycle (s : Hw)
    (h : logicalCk (clock s) (usedTicks s) < usedTicks s) :
    (usedTicks s = TICKS_50HZ ∨ usedTicks s = TICKS_60HZ) ∧
    ((loopIter s).PB_ODR &&& TICK_PIN = TICK_PIN ↔
      usedTicks s / 2 < logicalCk (clock s) (usedTicks s)) ∧
    ((loopIter s).PB_ODR &&& TICK_PIN = 0 ↔
      ¬ usedTicks s / 2 < logicalCk (clock s) (usedTicks s)) := by
  have hodr := loopIter_PB_ODR s
  by_cases hb : usedTicks s / 2 < logicalCk (clock s) (usedTicks s)
  · have hbt : outputHigh (logicalCk (clock s) (usedTicks s)) (usedTicks s) = true := by
      simpa [outputHigh] using hb
    rw [hbt] at hodr
    simp only [if_pos] at hodr
    refine ⟨usedTicks_cases s, ?_, ?_⟩
    · rw [hodr, or_tick_and_tick]
      simp [hb]
    · rw [hodr, or_tick_and_tick]
      simp [hb, TICK_PIN]
  · have hbt : outputHigh (logicalCk (clock s) (usedTicks s)) (usedTicks s) = false := by
      simpa [outputHigh] using hb
    rw [hbt] at hodr
    simp only [Bool.false_eq_true, if_false] at hodr
    refine ⟨usedTicks_cases s, ?_, ?_⟩
    · rw [hodr, and_mask_and_tick]
      simp [hb, TICK_PIN]
    · rw [hodr, and_mask_and_tick]
      simp [hb]

/-- Claim C2: for every loop iteration whose sampled counter value exceeds
the selected period, the iteration writes the hardware counter to its
maximum value 0xFFFF and uses logical counter value 0 for the duty-cycle
decision, so the output is driven low on that iteration. -/
theorem C2_overshoot_resets (s : Hw) (h : usedTicks s < clock s) :
    (loopIter s).TIM1_CNTRH = 0xff ∧
    (loopIter s).TIM1_CNTRL = 0xff ∧
    clock (loopIter s) = 0xffff ∧
    logicalCk (clock s) (usedTicks s) = 0 ∧
    (loopIter s).PB_ODR &&& TICK_PIN = 0 := by
  have h1 := loopIter_TIM1_CNTRH s
  have h2 := loopIter_TIM1_CNTRL s
  rw [if_pos h] at h1 h2
  have hlck : logicalCk (clock s) (usedTicks s) = 0 := by
    simp [logicalCk, h]
  refine ⟨h1, h2, ?_, hlck, ?_⟩
  · unfold clock
    rw [h1, h2]
    decide
  · rw [loopIter_PB_ODR, hlck]
    have hb : outputHigh 0 (usedTicks s) = false := by
      simp [outputHigh]
    rw [hb]
    simp only [Bool.false_eq_true, if_false]
    exact and_mask_and_tick s.PB_ODR

/-- Claim C3: the period used by an iteration is determined by the
frequency-select input sampled in that same iteration: logic low (bit
clear) maps to the 50 Hz period of 40,000 ticks and logic high (bit set)
maps to the 60 Hz period of 33,333 ticks, and overwriting the input data
register changes the period used on the very next iteration, with no
latched state involved. -/
theorem C3_frequency_select (s : Hw) (i : ℕ) :
    usedTicks s = selectTicks s.PB_IDR ∧
    (selectTicks i = TICKS_50HZ ↔ i &&& FREQ_SELECT_PIN = 0) ∧
    (selectTicks i = TICKS_60HZ ↔ i &&& FREQ_SELECT_PIN ≠ 0) ∧
    usedTicks { s with PB_IDR := i } = selectTicks i := by
  refine ⟨rfl, ?_, ?_, rfl⟩ <;> unfold selectTicks <;> split <;>
    simp_all [TICKS_50HZ, TICKS_60HZ]

/-- Claim C4, counterexample: the spec counts 20,000 high values in
[0, 40000) and 16,667 high values in [0, 33333), but the strict
comparison c > P / 2 makes the high range (P / 2, P), which holds one
value fewer in each case. -/
theorem C4_claimed_counts_false :
    countHigh TICKS_50HZ ≠ 20000 ∧ countHigh TICKS_60HZ ≠ 16667 := by
  constructor <;> rw [countHigh_formula] <;> norm_num [TICKS_50HZ, TICKS_60HZ]

/-- Claim C4, amended: applying the duty-cycle decision to every counter
value c in [0, P), the number of values with output high is exactly
19,999 for P = 40,000 (fraction 19,999/40,000) and exactly 16,666 for
P = 33,333 (fraction 16,666/33,333). -/
theorem C4_high_counts :
    countHigh TICKS_50HZ = 19999 ∧ countHigh TICKS_60HZ = 16666 := by
  constructor <;> rw [countHigh_formula] <;> norm_num [TICKS_50HZ, TICKS_60HZ]

/-- Claim C5: the startup sequence writes the same direction configuration
for both pins: the data direction register gets TICK_PIN ||| FREQ_SELECT_PIN,
so the direction bit of the frequency-select pin is set exactly like the
tick output pin's, and the frequency-select pin is therefore not
configured for the opposite (input) direction. -/
theorem C5_ddr_configures_select_as_output (s : Hw) :
    (startup s).PB_DDR = (TICK_PIN ||| FREQ_SELECT_PIN) ∧
    (startup s).PB_DDR &&& FREQ_SELECT_PIN = FREQ_SELECT_PIN ∧
    (startup s).PB_DDR &&& TICK_PIN = TICK_PIN := by
  refine ⟨rfl, ?_, ?_⟩
  · show (TICK_PIN ||| FREQ_SELECT_PIN) &&& FREQ_SELECT_PIN = FREQ_SELECT_PIN
    decide
  · show (TICK_PIN ||| FREQ_SELECT_PIN) &&& TICK_PIN = TICK_PIN
    decide

/-- Claim C6: the startup sequence encodes the prescale divisor register
as the division factor minus one (7 for divide-by-8), the effective
counter rate computes to 16,000,000 / 8 = 2,000,000 increments per
second, and the period constants equal floor(2,000,000 / 50) = 40,000 and
floor(2,000,000 / 60) = 33,333 exactly. -/
theorem C6_prescaler_and_periods (s : Hw) :
    (startup s).TIM1_PSCRH = 0 ∧
    (startup s).TIM1_PSCRL = 0x08 - 1 ∧
    (((startup s).TIM1_PSCRH <<< 8) ||| (startup s).TIM1_PSCRL) + 1 = 8 ∧
    16000000 / ((((startup s).TIM1_PSCRH <<< 8) ||| (startup s).TIM1_PSCRL) + 1)
      = 2000000 ∧
    TICKS_50HZ = 2000000 / 50 ∧
    TICKS_60HZ = 2000000 / 60 := by
  refine ⟨rfl, rfl, ?_, ?_, by decide, by decide⟩
  · show ((0 <<< 8) ||| (0x08 - 1)) + 1 = 8
    decide
  · show 16000000 / (((0 <<< 8) ||| (0x08 - 1)) + 1) = 2000000
    decide

/-- Claim C7: after the startup sequence and before the first loop
iteration, the tick bit of the port output data register is clear, so the
output idles low before any toggling logic runs. -/
theorem C7_output_starts_low (s : Hw) :
    (startup s).PB_ODR &&& TICK_PIN = 0 :=
  and_mask_and_tick s.PB_ODR

lemma clock_loopIter (s : Hw) (h : clock s ≤ usedTicks s) :
    clock (loopIter s) = clock s := by
  unfold clock
  rw [loopIter_TIM1_CNTRH, loopIter_TIM1_CNTRL, if_neg (not_lt.mpr h),
    if_neg (not_lt.mpr h)]

lemma loopIter_idem (s : Hw) (h : clock s ≤ usedTicks s) :
    loopIter (loopIter s) = loopIter s := by
  have hck : clock (loopIter s) = clock s := clock_loopIter s h
  have hut : usedTicks (loopIter s) = usedTicks s := loopIter_usedTicks s
  have hnr : ¬ usedTicks s < clock s := not_lt.mpr h
  ext
  · rw [loopIter_CLK_CKDIVR]
  · rw [loopIter_TIM1_CNTRH (loopIter s), hck, hut, if_neg hnr]
  · rw [loopIter_TIM1_CNTRL (loopIter s), hck, hut, if_neg hnr]
  · rw [loopIter_TIM1_PSCRH]
  · rw [loopIter_TIM1_PSCRL]
  · rw [loopIter_TIM1_CR1]
  · rw [loopIter_PB_ODR (loopIter s), hck, hut, loopIter_PB_ODR s]
    by_cases hb :
        outputHigh (logicalCk (clock s) (usedTicks s)) (usedTicks s) = true
    · rw [hb]
      simp only [if_pos]
      rw [Nat.or_assoc, Nat.or_self]
    · rw [Bool.not_eq_true] at hb
      rw [hb]
      simp only [Bool.false_eq_true, if_false]
      rw [Nat.and_assoc, Nat.and_self]
  · rw [loopIter_PB_IDR]
  · rw [loopIter_PB_DDR]
  · rw [loopIter_PB_CR1]

/-- Claim C8: when the sampled counter value is at or below the selected
period, the reset-on-overshoot step is a no-op: the counter registers are
unchanged, the logical counter value equals the sampled value, the output
decision uses the sampled value, and running any number of further
iterations from there changes nothing. -/
theorem C8_no_overshoot_noop (s : Hw) (n : ℕ) (h : clock s ≤ usedTicks s) :
    (loopIter s).TIM1_CNTRH = s.TIM1_CNTRH ∧
    (loopIter s).TIM1_CNTRL = s.TIM1_CNTRL ∧
    clock (loopIter s) = clock s ∧
    logicalCk (clock s) (usedTicks s) = clock s ∧
    ((loopIter s).PB_ODR &&& TICK_PIN = TICK_PIN ↔
      usedTicks s / 2 < clock s) ∧
    loopIter^[n] (loopIter s) = loopIter s := by
  have hnr : ¬ usedTicks s < clock s := not_lt.mpr h
  have hlck : logicalCk (clock s) (usedTicks s) = clock s := by
    simp [logicalCk, hnr]
  refine ⟨?_, ?_, clock_loopIter s h, hlck, ?_, ?_⟩
  · rw [loopIter_TIM1_CNTRH, if_neg hnr]
  · rw [loopIter_TIM1_CNTRL, if_neg hnr]
  · rw [loopIter_PB_ODR, hlck]
    by_cases hb : usedTicks s / 2 < clock s
    · have hbt : outputHigh (clock s) (usedTicks s) = true := by
        simpa [outputHigh] using hb
      rw [hbt]
      simp only [if_pos]
      rw [or_tick_and_tick]
      simp [hb]
    · have hbt : outputHigh (clock s) (usedTicks s) = false := by
        simpa [outputHigh] using hb
      rw [hbt]
      simp only [Bool.false_eq_true, if_false]
      rw [and_mask_and_tick]
      simp [hb, TICK_PIN]
  · induction n with
    | zero => rfl
    | succ n ih =>
        rw [Function.iterate_succ_apply, loopIter_idem s h, ih]

/-- Claim C9: when the sampled counter value equals the selected period
exactly, the strict overshoot comparison does not fire: the counter
registers are unchanged, the logical counter value is the period itself,
and since P > P / 2 for both supported periods the output is driven
high. -/
theorem C9_boundary_value_high (s : Hw) (h : clock s = usedTicks s) :
    (loopIter s).TIM1_CNTRH = s.TIM1_CNTRH ∧
    (loopIter s).TIM1_CNTRL = s.TIM1_CNTRL ∧
    logicalCk (clock s) (usedTicks s) = usedTicks s ∧
    (loopIter s).PB_ODR &&& TICK_PIN = TICK_PIN := by
  have hle : clock s ≤ usedTicks s := le_of_eq h
  have hnr : ¬ usedTicks s < clock s := not_lt.mpr hle
  have hlck : logicalCk (clock s) (usedTicks s) = usedTicks s := by
    simp [logicalCk, hnr, h]
  refine ⟨?_, ?_, hlck, ?_⟩
  · rw [loopIter_TIM1_CNTRH, if_neg hnr]
  · rw [loopIter_TIM1_CNTRL, if_neg hnr]
  · rw [loopIter_PB_ODR, hlck]
    have hdiv : usedTicks s / 2 < usedTicks s :=
      Nat.div_lt_self (usedTicks_pos s) (by norm_num)
    have hbt : outputHigh (usedTicks s) (usedTicks s) = true := by
      simpa [outputHigh] using hdiv
    rw [hbt]
    simp only [if_pos]
    exact or_tick_and_tick s.PB_ODR

/-- Claim C10: every write the loop body and the pre-loop low-forcing
step perform on the port output data register changes only the tick
pin's bit: every other bit of the byte-sized register is preserved. -/
theorem C10_odr_frame (s : Hw) (i : ℕ) (h8 : s.PB_ODR < 256) (hi : i ≠ 0) :
    ((loopIter s).PB_ODR).testBit i = (s.PB_ODR).testBit i ∧
    ((startup s).PB_ODR).testBit i = (s.PB_ODR).testBit i := by
  constructor
  · rw [loopIter_PB_ODR]
    split
    · exact or_tick_testBit s.PB_ODR i hi
    · exact and_mask_testBit s.PB_ODR i h8 hi
  · exact and_mask_testBit s.PB_ODR i h8 hi

/-- Concrete state for the C1 witness: counter at 20,000, select pin low. -/
def hwC1 : Hw := { hwBase with TIM1_CNTRH := 0x4E, TIM1_CNTRL := 0x20 }

/-- Concrete state for the C2 witness: counter at 65,280, select pin low. -/
def hwC2 : Hw := { hwBase with TIM1_CNTRH := 0xFF, TIM1_CNTRL := 0x00 }

/-- Concrete state for the C8 witness: counter at 10,000, select pin low. -/
def hwC8 : Hw := { hwBase with TIM1_CNTRH := 0x27, TIM1_CNTRL := 0x10 }

/-- Concrete state for the C9 witness: counter at 40,000, select pin low. -/
def hwC9 : Hw := { hwBase with TIM1_CNTRH := 0x9C, TIM1_CNTRL := 0x40 }

/-- Concrete state for the C10 witness: output register holding 0xAA. -/
def hwC10 : Hw := { hwBase with PB_ODR := 0xAA }

/-- Witness for C1 at the concrete state hwC1 (counter 20,000, period
40,000): exactly at the midpoint the output is driven low. -/
theorem C1_duty_cycle_witness :
    logicalCk (clock hwC1) (usedTicks hwC1) < usedTicks hwC1 ∧
    ((usedTicks hwC1 = TICKS_50HZ ∨ usedTicks hwC1 = TICKS_60HZ) ∧
     ((loopIter hwC1).PB_ODR &&& TICK_PIN = TICK_PIN ↔
       usedTicks hwC1 / 2 < logicalCk (clock hwC1) (usedTicks hwC1)) ∧
     ((loopIter hwC1).PB_ODR &&& TICK_PIN = 0 ↔
       ¬ usedTicks hwC1 / 2 < logicalCk (clock hwC1) (usedTicks hwC1))) :=
  ⟨by decide, C1_duty_cycle hwC1 (by decide)⟩

/-- Witness for C2 at the concrete state hwC2 (counter 65,280, period
40,000): the overshoot branch writes 0xFFFF and drives the output low. -/
theorem C2_overshoot_resets_witness :
    usedTicks hwC2 < clock hwC2 ∧
    ((loopIter hwC2).TIM1_CNTRH = 0xff ∧
     (loopIter hwC2).TIM1_CNTRL = 0xff ∧
     clock (loopIter hwC2) = 0xffff ∧
     logicalCk (clock hwC2) (usedTicks hwC2) = 0 ∧
     (loopIter hwC2).PB_ODR &&& TICK_PIN = 0) :=
  ⟨by decide, C2_overshoot_resets hwC2 (by decide)⟩

/-- Witness for C8 at the concrete state hwC8 (counter 10,000, period
40,000) and three further iterations. -/
theorem C8_no_overshoot_noop_witness :
    clock hwC8 ≤ usedTicks hwC8 ∧
    ((loopIter hwC8).TIM1_CNTRH = hwC8.TIM1_CNTRH ∧
     (loopIter hwC8).TIM1_CNTRL = hwC8.TIM1_CNTRL ∧
     clock (loopIter hwC8) = clock hwC8 ∧
     logicalCk (clock hwC8) (usedTicks hwC8) = clock hwC8 ∧
     ((loopIter hwC8).PB_ODR &&& TICK_PIN = TICK_PIN ↔
       usedTicks hwC8 / 2 < clock hwC8) ∧
     loopIter^[3] (loopIter hwC8) = loopIter hwC8) :=
  ⟨by decide, C8_no_overshoot_noop hwC8 3 (by decide)⟩

/-- Witness for C9 at the concrete state hwC9 (counter exactly 40,000,
period 40,000): no reset, output driven high. -/
theorem C9_boundary_value_high_witness :
    clock hwC9 = usedTicks hwC9 ∧
    ((loopIter hwC9).TIM1_CNTRH = hwC9.TIM1_CNTRH ∧
     (loopIter hwC9).TIM1_CNTRL = hwC9.TIM1_CNTRL ∧
     logicalCk (clock hwC9) (usedTicks hwC9) = usedTicks hwC9 ∧
     (loopIter hwC9).PB_ODR &&& TICK_PIN = TICK_PIN) :=
  ⟨by decide, C9_boundary_value_high hwC9 (by decide)⟩

/-- Witness for C10 at the concrete state hwC10 (output register 0xAA)
and bit index 3. -/
theorem C10_odr_frame_witness :
    hwC10.PB_ODR < 256 ∧ (3 : ℕ) ≠ 0 ∧
    (((loopIter hwC10).PB_ODR).testBit 3 = (hwC10.PB_ODR).testBit 3 ∧
     ((startup hwC10).PB_ODR).testBit 3 = (hwC10.PB_ODR).testBit 3) :=
  ⟨by decide, by decide, C10_odr_frame hwC10 3 (by decide) (by decide)⟩
